import Mathlib

/-!
# virtio-msg "sapphire" PCI transport and the Xen virt2gfn ioctl

A shallow embedding of `drivers/virtio/virtio_msg_sapphire.c` and of
`drivers/xen/xen-virt2gfn.c`.

The driver functions are embedded as pure functions that take the results of
the kernel calls they make (an oracle) and return their own return value
together with the ordered list of kernel calls they issued.  Pure logging
(`printk`, `dev_info`) is left out of the trace; `dev_warn` and `dev_err` are
kept.  The C `int` variables (`vectors`, `irq`, `err`) are embedded as
unbounded integers: the loop counters stay between `-1` and `vectors`, which
is itself an `int`, so no operation of the driver can wrap.
-/

namespace Sapphire

/-! ## Kernel vocabulary -/

/-- Kernel errno `ENOMEM` (errno-base.h, outside the driver sources). -/
def ENOMEM : Int := 12

/-- The enum `irqreturn_t` of the kernel. -/
inductive irqreturn
  | IRQ_NONE
  | IRQ_HANDLED
  | IRQ_WAKE_THREAD
  deriving DecidableEq, Repr

/-- The enum `hrtimer_restart` of the kernel. -/
inductive hrtimer_restart
  | HRTIMER_NORESTART
  | HRTIMER_RESTART
  deriving DecidableEq, Repr

/-- Functions of the driver that are handed to the kernel as callbacks. -/
inductive Callback
  | sapphire_irq_handler
  | sapphire_poll_timer_expired
  | sapphire_tx_notify
  | sapphire_get_device
  | sapphire_release
  deriving DecidableEq, Repr

/-- Kernel calls issued by the driver, with their arguments and results.
`request_irq vec ..` and `free_irq vec ..` stand for the calls made on
`pci_irq_vector(pdev, vec)`. `hrtimer_cancel` is never issued by the driver;
it is part of the vocabulary so that its absence can be stated. -/
inductive Action
  | devm_kzalloc (ret : Option Nat)
  | pcim_enable_device (ret : Int)
  | pcim_iomap_regions (mask : Nat) (ret : Int)
  | pci_msix_vec_count (ret : Int)
  | pci_alloc_irq_vectors (min_vecs max_vecs : Int) (intx msix : Bool) (ret : Int)
  | request_irq (vec : Nat) (handler : Callback) (dev_id : Nat) (ret : Int)
  | pci_set_drvdata (dev : Nat)
  | pci_set_master
  | dma_alloc_coherent (size : Nat) (ret : Option Nat)
  | hrtimer_init (function : Callback)
  | hrtimer_start (ms : Nat)
  | virtio_msg_amp_register (ret : Int)
  | dma_free_coherent (size : Nat) (block : Option Nat)
  | pci_clear_master
  | free_irq (vec : Nat) (dev_id : Nat)
  | pci_free_irq_vectors
  | virtio_msg_amp_unregister
  | hrtimer_cancel
  | hrtimer_forward_now (ms : Nat)
  | writel (v : Nat)
  | readl (r : Nat)
  | udelay (us : Nat)
  | virtio_msg_amp_notify_rx (idx : Nat) (ret : Int)
  | dev_warn
  | dev_err (code : Int)
  deriving DecidableEq, Repr

/-- The fields of `struct sapphire_dev` that the driver reads or writes. -/
structure sapphire_dev where
  vectors : Int
  shmem : Option Nat
  shmem_size : Nat
  shmem_dma : Nat
  timer_function : Option Callback
  probed_ok : Bool
  deriving DecidableEq, Repr

/-- A device instance as `devm_kzalloc` returns it: all fields zero. -/
def zeroed_dev : sapphire_dev :=
  { vectors := 0, shmem := none, shmem_size := 0, shmem_dma := 0,
    timer_function := none, probed_ok := false }

/-! ## Interrupt handler -/

/-- `sapphire_irq_handler`: deliver on notify index 0, log an error result,
always report the interrupt as handled. `rx` is the result of
`virtio_msg_amp_notify_rx`. -/
def sapphire_irq_handler (rx : Int) : irqreturn × List Action :=
  let err := rx
  let t := [Action.virtio_msg_amp_notify_rx 0 err]
  let t := if err ≠ 0 then t ++ [Action.dev_err err] else t
  (irqreturn.IRQ_HANDLED, t)

/-! ## Doorbell register -/

/-- A model of the hardware behind `regs->int_status`: how a 32-bit write
changes the hardware state and what a read returns. -/
structure RegModel (σ : Type) where
  write : Nat → σ → σ
  read : σ → Nat × σ

/-- The register that echoes writes: a read returns the last value written. -/
def echo_reg : RegModel Nat :=
  { write := fun v _ => v % 2 ^ 32, read := fun s => (s, s) }

/-- A register stuck at a fixed value, whatever is written. -/
def stuck_reg (c : Nat) : RegModel Unit :=
  { write := fun _ s => s, read := fun s => (c, s) }

/-- The loop `do { writel(v, reg); r = readl(reg); } while (r != v);`.
The first argument bounds the number of iterations; `none` means the bound
was reached with the loop still running. -/
def write_until_read (hw : RegModel σ) (v : Nat) : Nat → σ → Option (σ × List Action)
  | 0, _ => none
  | fuel + 1, s =>
    let s1 := hw.write v s
    let (r, s2) := hw.read s1
    if r ≠ v then
      (write_until_read hw v fuel s2).map
        (fun (p : σ × List Action) => (p.1, [Action.writel v, Action.readl r] ++ p.2))
    else
      some (s2, [Action.writel v, Action.readl r])

/-- Result of a driver function that touches the register. -/
structure RegResult (σ : Type) (ρ : Type) where
  ret : ρ
  hw : σ
  trace : List Action

/-- `sapphire_tx_notify`: warn about and normalise a non-zero index, pulse the
register to 1 and back to 0, each write confirmed by a read, return 0. -/
def sapphire_tx_notify (hw : RegModel σ) (fuel : Nat) (notify_idx : Nat) (s : σ) :
    Option (RegResult σ Int) :=
  let (t0, _notify_idx) :=
    if notify_idx ≠ 0 then ([Action.dev_warn], 0) else (([] : List Action), notify_idx)
  match write_until_read hw 1 fuel s with
  | none => none
  | some (s1, t1) =>
    match write_until_read hw 0 fuel s1 with
    | none => none
    | some (s2, t2) =>
      some { ret := 0, hw := s2,
             trace := t0 ++ t1 ++ [Action.udelay 10] ++ t2 ++ [Action.udelay 10] }

/-- The values written to the register, in order. -/
def reg_writes : List Action → List Nat
  | [] => []
  | Action.writel v :: t => v :: reg_writes t
  | _ :: t => reg_writes t

/-! ## Poll timer -/

/-- `sapphire_poll_timer_expired`: the stop branch is guarded by
`probed_ok && 0`; otherwise pulse the doorbell, deliver on index 0, log an
error result, forward the timer by 50 ms and ask for a restart. -/
def sapphire_poll_timer_expired (hw : RegModel σ) (fuel : Nat) (dev : sapphire_dev)
    (rx : Int) (s : σ) : Option (RegResult σ hrtimer_restart) :=
  if dev.probed_ok && false then
    some { ret := hrtimer_restart.HRTIMER_NORESTART, hw := s, trace := [] }
  else
    match sapphire_tx_notify hw fuel 0 s with
    | none => none
    | some r =>
      let err := rx
      let t := r.trace ++ [Action.virtio_msg_amp_notify_rx 0 err]
      let t := if err ≠ 0 then t ++ [Action.dev_err err] else t
      some { ret := hrtimer_restart.HRTIMER_RESTART, hw := r.hw,
             trace := t ++ [Action.hrtimer_forward_now 50] }

/-! ## Bring-up and teardown -/

/-- The results of the kernel calls `sapphire_probe` makes. `request_irq_ret i`
is the result of `request_irq` for vector `i`; `dma_ret` is the block
`dma_alloc_coherent` returns (CPU address and bus address) or `none` for
`NULL`. -/
structure ProbeEnv where
  kzalloc_ret : Option Nat
  enable_ret : Int
  device_name_ok : Bool
  iomap_ret : Int
  msix_vec_count : Int
  alloc_vectors_ret : Int
  request_irq_ret : Nat → Int
  dma_ret : Option (Nat × Nat)
  register_ret : Int

/-- What `sapphire_probe` returns, the device instance as it leaves it, and
the kernel calls it made. -/
structure ProbeResult where
  ret : Int
  dev : sapphire_dev
  trace : List Action

/-- The loop `for (irq = 0; irq < vectors; irq++) { err = request_irq(..);
if (err) goto error_irq; }`, started at `irq` with `n = vectors - irq`
iterations to go. Returns the calls made, the error that left the loop (if
any) and the value of `irq` on exit. -/
def request_irqs (req : Nat → Int) (dev_id : Nat) : Nat → Nat → List Action × Option Int × Nat
  | 0, irq => ([], none, irq)
  | n + 1, irq =>
    let err := req irq
    let a := Action.request_irq irq Callback.sapphire_irq_handler dev_id err
    if err ≠ 0 then ([a], some err, irq)
    else
      let r := request_irqs req dev_id n (irq + 1)
      (a :: r.1, r.2.1, r.2.2)

/-- The loop `while (--irq >= 0) free_irq(pci_irq_vector(pdev, irq), dev);`
entered with the given value of `irq`. -/
def free_irqs_down (dev_id : Nat) : Nat → List Action
  | 0 => []
  | irq + 1 => Action.free_irq irq dev_id :: free_irqs_down dev_id irq

/-- The loop `for (i = 0; i < vectors; i++) free_irq(pci_irq_vector(pdev, i),
dev);` of `sapphire_remove`, at `i` with `n = vectors - i` iterations to go. -/
def free_irqs_up (dev_id : Nat) : Nat → Nat → List Action
  | 0, _ => []
  | n + 1, i => Action.free_irq i dev_id :: free_irqs_up dev_id n (i + 1)

/-- `sapphire_probe`. The labels `error_reg`, `error_irq` and `error` of the C
function are the tails of the traces returned on the failure paths. -/
def sapphire_probe (env : ProbeEnv) : ProbeResult :=
  match env.kzalloc_ret with
  | none => { ret := -ENOMEM, dev := zeroed_dev, trace := [Action.devm_kzalloc none] }
  | some p =>
    let dev := zeroed_dev
    let t := [Action.devm_kzalloc (some p)]
    let err := env.enable_ret
    let t := t ++ [Action.pcim_enable_device err]
    if err ≠ 0 then { ret := err, dev := dev, trace := t } else
    if !env.device_name_ok then { ret := -ENOMEM, dev := dev, trace := t } else
    let err := env.iomap_ret
    let t := t ++ [Action.pcim_iomap_regions (2 ^ 2) err]
    if err ≠ 0 then { ret := err, dev := dev, trace := t } else
    let dev := { dev with vectors := env.msix_vec_count }
    let t := t ++ [Action.pci_msix_vec_count env.msix_vec_count]
    let dev := { dev with vectors := if dev.vectors < 0 then 1 else dev.vectors }
    let err := env.alloc_vectors_ret
    let t := t ++ [Action.pci_alloc_irq_vectors dev.vectors dev.vectors true true err]
    if err < 0 then { ret := err, dev := dev, trace := t } else
    match request_irqs env.request_irq_ret p dev.vectors.toNat 0 with
    | (tl, some err, irq) =>
      -- error_irq
      { ret := err, dev := dev,
        trace := t ++ tl ++ free_irqs_down p irq ++ [Action.pci_free_irq_vectors] }
    | (tl, none, irq) =>
      let t := t ++ tl ++ [Action.pci_set_drvdata p, Action.pci_set_master]
      let t := t ++ [Action.dma_alloc_coherent (8 * 1024) (env.dma_ret.map Prod.fst)]
      let dev := { dev with shmem := env.dma_ret.map Prod.fst,
                            shmem_dma := (env.dma_ret.map Prod.snd).getD dev.shmem_dma,
                            shmem_size := 8 * 1024 }
      let t := t ++ [Action.hrtimer_init Callback.sapphire_poll_timer_expired]
      let dev := { dev with timer_function := some Callback.sapphire_poll_timer_expired }
      let t := t ++ [Action.hrtimer_start 50]
      let err := env.register_ret
      let t := t ++ [Action.virtio_msg_amp_register err]
      if err ≠ 0 then
        -- error_reg, falling through to error_irq
        { ret := err, dev := dev,
          trace := t ++ [Action.dma_free_coherent (8 * 1024) dev.shmem, Action.pci_clear_master]
                     ++ free_irqs_down p irq ++ [Action.pci_free_irq_vectors] }
      else
        { ret := 0, dev := { dev with probed_ok := true }, trace := t }

/-- `sapphire_remove` on the instance `dev` stored at `dev_id`. -/
def sapphire_remove (dev_id : Nat) (dev : sapphire_dev) : List Action :=
  [Action.writel 0, Action.pci_clear_master, Action.virtio_msg_amp_unregister]
    ++ free_irqs_up dev_id dev.vectors.toNat 0
    ++ [Action.pci_free_irq_vectors]

/-! ## Resources held after a sequence of kernel calls -/

/-- The resources the kernel holds on behalf of the driver. `irqs` lists the
vectors that have a handler bound, most recently bound first. -/
structure Resources where
  irqs : List Nat
  vectors : Bool
  bus_master : Bool
  dma : Bool
  timer_armed : Bool
  registered : Bool
  deriving DecidableEq, Repr

/-- No resource held. -/
def Resources.none : Resources :=
  { irqs := [], vectors := false, bus_master := false, dma := false,
    timer_armed := false, registered := false }

/-- Effect of one kernel call on the resources held. A failed acquisition
acquires nothing. -/
def Resources.step (r : Resources) : Action → Resources
  | Action.pci_alloc_irq_vectors _ _ _ _ ret => if ret < 0 then r else { r with vectors := true }
  | Action.pci_free_irq_vectors => { r with vectors := false }
  | Action.request_irq vec _ _ ret => if ret ≠ 0 then r else { r with irqs := vec :: r.irqs }
  | Action.free_irq vec _ => { r with irqs := r.irqs.erase vec }
  | Action.pci_set_master => { r with bus_master := true }
  | Action.pci_clear_master => { r with bus_master := false }
  | Action.dma_alloc_coherent _ ret => if ret.isSome then { r with dma := true } else r
  | Action.dma_free_coherent _ _ => { r with dma := false }
  | Action.hrtimer_start _ => { r with timer_armed := true }
  | Action.hrtimer_cancel => { r with timer_armed := false }
  | Action.virtio_msg_amp_register ret => if ret ≠ 0 then r else { r with registered := true }
  | Action.virtio_msg_amp_unregister => { r with registered := false }
  | _ => r

/-- Resources held after a sequence of kernel calls. -/
def Resources.run (r : Resources) (t : List Action) : Resources :=
  t.foldl Resources.step r

/-- Whether a call, if it is a release, releases something that is held. -/
def Resources.release_ok (r : Resources) : Action → Bool
  | Action.pci_free_irq_vectors => r.vectors
  | Action.free_irq vec _ => decide (vec ∈ r.irqs)
  | Action.pci_clear_master => r.bus_master
  | Action.dma_free_coherent _ block => r.dma && block.isSome
  | Action.hrtimer_cancel => r.timer_armed
  | Action.virtio_msg_amp_unregister => r.registered
  | _ => true

/-- Whether every release in a sequence of calls releases something that is
held at that point. -/
def Resources.releases_held (r : Resources) : List Action → Bool
  | [] => true
  | a :: t => r.release_ok a && (r.step a).releases_held t

/-- The `free_irq` calls of a trace, as the vectors freed, in order. -/
def freed_irqs : List Action → List Nat
  | [] => []
  | Action.free_irq vec _ :: t => vec :: freed_irqs t
  | _ :: t => freed_irqs t

/-- The successful `request_irq` calls of a trace: vector, handler, dev_id. -/
def bound_irqs : List Action → List (Nat × Callback × Nat)
  | [] => []
  | Action.request_irq vec h d ret :: t =>
    if ret = 0 then (vec, h, d) :: bound_irqs t else bound_irqs t
  | _ :: t => bound_irqs t

/-- A run of a callback of the driver, as the kernel invokes it. Only the
interrupt handler is dispatched here; `rx` is the result `notify_rx` gives. -/
def run_callback (rx : Int) : Callback → Option (irqreturn × List Action)
  | Callback.sapphire_irq_handler => some (sapphire_irq_handler rx)
  | _ => none

/-- One firing of vector `vec`: the kernel runs every handler bound to it. -/
def fire_vector (t : List Action) (vec : Nat) (rx : Int) : List (Option (irqreturn × List Action)) :=
  ((bound_irqs t).filter (fun b => b.1 = vec)).map (fun b => run_callback rx b.2.1)

/-- An oracle in which every step succeeds, with `n` MSI-X vectors. -/
def env_ok (n : Nat) : ProbeEnv :=
  { kzalloc_ret := some 4096, enable_ret := 0, device_name_ok := true, iomap_ret := 0,
    msix_vec_count := n, alloc_vectors_ret := n, request_irq_ret := fun _ => 0,
    dma_ret := some (8192, 8192), register_ret := 0 }

/-- Three vectors; `request_irq` fails with -16 for vector 2. -/
def env_bind_fail : ProbeEnv :=
  { env_ok 3 with request_irq_ret := fun i => if i = 2 then -16 else 0 }

/-- Every step succeeds except the registration, which fails with -12. -/
def env_register_fail (n : Nat) : ProbeEnv :=
  { env_ok n with register_ret := -12 }

/-- Every step succeeds except that `dma_alloc_coherent` returns `NULL`. -/
def env_dma_fail (n : Nat) : ProbeEnv :=
  { env_ok n with dma_ret := none }

/-- `dma_alloc_coherent` returns `NULL` and the registration fails with -12. -/
def env_dma_register_fail (n : Nat) : ProbeEnv :=
  { env_ok n with dma_ret := none, register_ret := -12 }

/-- The resource summary of a failed bring-up, used for every failing step. -/
def unwound (env : ProbeEnv) (armed : Bool) : Prop :=
  (sapphire_probe env).ret ≠ 0 ∧
  Resources.none.run (sapphire_probe env).trace =
    { Resources.none with timer_armed := armed } ∧
  Resources.none.releases_held (sapphire_probe env).trace = true ∧
  Action.hrtimer_cancel ∉ (sapphire_probe env).trace

/-- The channels of the `virtio_msg_amp_notify_rx` calls of a trace, in order. -/
def notify_rx_calls : List Action → List Nat
  | [] => []
  | Action.virtio_msg_amp_notify_rx idx _ :: t => idx :: notify_rx_calls t
  | _ :: t => notify_rx_calls t

/-- The `(min_vecs, max_vecs)` arguments of the `pci_alloc_irq_vectors` calls
of a trace, in order. -/
def alloc_requests : List Action → List (Int × Int)
  | [] => []
  | Action.pci_alloc_irq_vectors mn mx _ _ _ :: t => (mn, mx) :: alloc_requests t
  | _ :: t => alloc_requests t

/-- Whether a call is a `dma_free_coherent`. -/
def is_dma_free : Action → Bool
  | Action.dma_free_coherent _ _ => true
  | _ => false

/-- The steps of bring-up at which `sapphire_probe` can be told of a failure,
in program order. -/
inductive Step
  | alloc_instance
  | enable_device
  | device_name
  | map_bars
  | alloc_vectors
  | bind_handlers
  | alloc_shmem
  | register_upward
  deriving DecidableEq, Repr

/-- The number of vectors `sapphire_probe` settles on for a given result of
`pci_msix_vec_count`. -/
def ProbeEnv.nvec (env : ProbeEnv) : Int :=
  if env.msix_vec_count < 0 then 1 else env.msix_vec_count

/-- The first step, in program order, whose kernel call reports a failure
under the oracle `env`; `none` when every call succeeds. -/
def ProbeEnv.first_failure (env : ProbeEnv) : Option Step :=
  if env.kzalloc_ret.isNone then some Step.alloc_instance
  else if env.enable_ret ≠ 0 then some Step.enable_device
  else if !env.device_name_ok then some Step.device_name
  else if env.iomap_ret ≠ 0 then some Step.map_bars
  else if env.alloc_vectors_ret < 0 then some Step.alloc_vectors
  else if (List.range env.nvec.toNat).any (fun i => decide (env.request_irq_ret i ≠ 0)) then
    some Step.bind_handlers
  else if env.dma_ret.isNone then some Step.alloc_shmem
  else if env.register_ret ≠ 0 then some Step.register_upward
  else none

end Sapphire

/-! # The Xen virt2gfn ioctl -/

namespace Xen

/-- Kernel errno `EFAULT` (errno-base.h, outside the driver sources). -/
def EFAULT : Int := 14

/-- Kernel errno `EINVAL` (errno-base.h, outside the driver sources). -/
def EINVAL : Int := 22

/-- The fixed part of `struct ioctl_xen_virt2gfn`: `count`, `padding` and
`addr[0]`. -/
structure ioctl_xen_virt2gfn where
  count : Nat
  padding : Nat
  addr0 : Nat
  deriving DecidableEq, Repr

/-- What `find_vma` hands back: an error pointer, `NULL`, or a VMA with its
`vm_start` and the page array stored in `vm_private_data` (`none` is a
`NULL` entry, `some pg` the page `pg`). -/
inductive VmaLookup
  | err
  | null
  | vma (vm_start : Nat) (pages : Nat → Option Nat)

/-- The environment of one `IOCTL_VIRT2GFN` request: the result of
`copy_from_user`, the address space, `page_to_pfn`, whether `copy_to_user`
succeeds, and the page shift of the architecture. -/
structure IoctlEnv where
  copy_in : Option ioctl_xen_virt2gfn
  find_vma : Nat → VmaLookup
  page_to_pfn : Nat → Nat
  copy_out_ok : Bool
  PAGE_SHIFT : Nat

/-- The return value of `xen_virt2gfn` and the argument of its
`copy_to_user` call, if it made one. -/
structure IoctlResult where
  rc : Int
  copied_out : Option ioctl_xen_virt2gfn
  deriving DecidableEq, Repr

/-- Subtraction of `uint64_t` values. -/
def u64_sub (a b : Nat) : Nat := (((a : Int) - (b : Int)) % 2 ^ 64).toNat

/-- `xen_virt2gfn` on a 64-bit kernel. The branch under `if (0)` is dead and
left out. `none` stands for the dereference of a `NULL` VMA. -/
def xen_virt2gfn (env : IoctlEnv) : Option IoctlResult :=
  match env.copy_in with
  | none => some { rc := -EFAULT, copied_out := none }
  | some op =>
    if op.count ≠ 1 then some { rc := -EINVAL, copied_out := none } else
    match env.find_vma op.addr0 with
    | VmaLookup.err => some { rc := -EFAULT, copied_out := none }
    | VmaLookup.null => none
    | VmaLookup.vma vm_start pages =>
      let offset := u64_sub op.addr0 vm_start
      let offset := offset >>> env.PAGE_SHIFT
      let (op, rc) :=
        match pages offset with
        | some page =>
          let pfn := (env.page_to_pfn page <<< env.PAGE_SHIFT) % 2 ^ 64
          ({ op with addr0 := pfn }, (0 : Int))
        | none => (op, -EFAULT)
      if !env.copy_out_ok then some { rc := -EFAULT, copied_out := some op }
      else some { rc := rc, copied_out := some op }

/-- A page array with a single page, 77, at index 1. -/
def sample_pages : Nat → Option Nat := fun i => if i = 1 then some 77 else none

/-- A request for the address 0x5000 in a VMA that starts at 0x4000, with
4 KiB pages. -/
def sample_request : IoctlEnv :=
  { copy_in := some { count := 1, padding := 0, addr0 := 0x5000 },
    find_vma := fun _ => VmaLookup.vma 0x4000 sample_pages,
    page_to_pfn := fun pg => pg + 1,
    copy_out_ok := true,
    PAGE_SHIFT := 12 }

end Xen

/-! # Theorems -/

namespace Sapphire

/-! ## The loops of bring-up and teardown -/

/-- When every `request_irq` succeeds the binding loop binds the vectors
`irq, irq+1, ..` in ascending order and exits with `irq` advanced by `n`. -/
theorem request_irqs_ok (req : Nat → Int) (d : Nat) (n irq : Nat)
    (h : ∀ i, i < n → req (irq + i) = 0) :
    request_irqs req d n irq =
      ((List.range' irq n).map (fun i => Action.request_irq i Callback.sapphire_irq_handler d 0),
        none, irq + n) := by
  induction n generalizing irq with
  | zero => simp [request_irqs]
  | succ n ih =>
    have h0 : req irq = 0 := by simpa using h 0 (Nat.succ_pos n)
    have hn : ∀ i, i < n → req (irq + 1 + i) = 0 := fun i hi => by
      have := h (i + 1) (Nat.succ_lt_succ hi)
      rwa [show irq + (i + 1) = irq + 1 + i by omega] at this
    simp only [request_irqs, h0, ne_eq, not_true_eq_false, if_false, ih (irq + 1) hn]
    simp [List.range'_succ]
    omega

/-- When `request_irq` succeeds for the first `j` vectors and fails for the
next one, the loop stops there: it has made `j + 1` calls, reports the error
and leaves `irq` at the failing vector. -/
theorem request_irqs_fail (req : Nat → Int) (d : Nat) (n irq j : Nat) (hj : j < n)
    (h : ∀ i, i < j → req (irq + i) = 0) (hf : req (irq + j) ≠ 0) :
    request_irqs req d n irq =
      ((List.range' irq j).map (fun i => Action.request_irq i Callback.sapphire_irq_handler d 0)
          ++ [Action.request_irq (irq + j) Callback.sapphire_irq_handler d (req (irq + j))],
        some (req (irq + j)), irq + j) := by
  induction n generalizing irq j with
  | zero => omega
  | succ n ih =>
    cases j with
    | zero =>
      have hf0 : req irq ≠ 0 := by simpa using hf
      simp [request_irqs, hf0]
    | succ j =>
      have h0 : req irq = 0 := by simpa using h 0 (Nat.succ_pos j)
      have hn : ∀ i, i < j → req (irq + 1 + i) = 0 := fun i hi => by
        have := h (i + 1) (Nat.succ_lt_succ hi)
        rwa [show irq + (i + 1) = irq + 1 + i by omega] at this
      have hf1 : req (irq + 1 + j) ≠ 0 := by
        rwa [show irq + (j + 1) = irq + 1 + j by omega] at hf
      have e : irq + 1 + j = irq + (j + 1) := by omega
      simp only [request_irqs, h0, ne_eq, not_true_eq_false, if_false,
        ih (irq + 1) j (by omega) hn hf1, e]
      simp [List.range'_succ]

/-- Either every one of `n` results is a success or there is a first failure. -/
theorem first_failure_cases (req : Nat → Int) (n : Nat) :
    (∀ i, i < n → req i = 0) ∨
      ∃ j, j < n ∧ (∀ i, i < j → req i = 0) ∧ req j ≠ 0 := by
  induction n with
  | zero => left; intro i hi; omega
  | succ n ih =>
    rcases ih with h | ⟨j, hj, h1, h2⟩
    · by_cases hn : req n = 0
      · left
        intro i hi
        rcases Nat.lt_succ_iff_lt_or_eq.mp hi with h3 | h3
        · exact h i h3
        · rw [h3]; exact hn
      · right; exact ⟨n, Nat.lt_succ_self n, h, hn⟩
    · right; exact ⟨j, Nat.lt_succ_of_lt hj, h1, h2⟩

/-- The unwinding loop frees the vectors below `irq` in descending order. -/
theorem free_irqs_down_eq (d : Nat) (irq : Nat) :
    free_irqs_down d irq = (List.range irq).reverse.map (fun i => Action.free_irq i d) := by
  induction irq with
  | zero => rfl
  | succ k ih => simp [free_irqs_down, ih, List.range_succ]

/-- The loop of `sapphire_remove` frees the vectors in ascending order. -/
theorem free_irqs_up_eq (d : Nat) (n i : Nat) :
    free_irqs_up d n i = (List.range' i n).map (fun j => Action.free_irq j d) := by
  induction n generalizing i with
  | zero => rfl
  | succ n ih => simp [free_irqs_up, ih, List.range'_succ]

/-! ## Projections of traces -/

theorem freed_irqs_append (a b : List Action) :
    freed_irqs (a ++ b) = freed_irqs a ++ freed_irqs b := by
  induction a with
  | nil => rfl
  | cons x t ih => cases x <;> simp [freed_irqs, ih]

theorem freed_irqs_map_free (d : Nat) (l : List Nat) :
    freed_irqs (l.map (fun i => Action.free_irq i d)) = l := by
  induction l with
  | nil => rfl
  | cons x t ih => simp [freed_irqs, ih]

theorem freed_irqs_map_free_reverse (d : Nat) (l : List Nat) :
    freed_irqs (l.map (fun i => Action.free_irq i d)).reverse = l.reverse := by
  rw [← List.map_reverse]
  exact freed_irqs_map_free d _

theorem freed_irqs_map_request (d : Nat) (l : List Nat) :
    freed_irqs (l.map (fun i => Action.request_irq i Callback.sapphire_irq_handler d 0)) = [] := by
  induction l with
  | nil => rfl
  | cons x t ih => simp [freed_irqs, ih]

theorem bound_irqs_append (a b : List Action) :
    bound_irqs (a ++ b) = bound_irqs a ++ bound_irqs b := by
  induction a with
  | nil => rfl
  | cons x t ih =>
    cases x <;> simp [bound_irqs, ih]
    split <;> simp

theorem bound_irqs_map_request (d : Nat) (l : List Nat) :
    bound_irqs (l.map (fun i => Action.request_irq i Callback.sapphire_irq_handler d 0)) =
      l.map (fun i => (i, Callback.sapphire_irq_handler, d)) := by
  induction l with
  | nil => rfl
  | cons x t ih => simp [bound_irqs, ih]

theorem bound_irqs_map_free_reverse (d : Nat) (l : List Nat) :
    bound_irqs (l.map (fun i => Action.free_irq i d)).reverse = [] := by
  rw [← List.map_reverse]
  generalize l.reverse = m
  induction m with
  | nil => rfl
  | cons x t ih => simpa [bound_irqs] using ih

/-! ## Resources along a trace -/

theorem run_append (r : Resources) (a b : List Action) :
    r.run (a ++ b) = (r.run a).run b := by
  simp [Resources.run, List.foldl_append]

theorem run_cons (r : Resources) (a : Action) (t : List Action) :
    r.run (a :: t) = (r.step a).run t := rfl

theorem run_nil (r : Resources) : r.run [] = r := rfl

theorem releases_held_append (r : Resources) (a b : List Action) :
    r.releases_held (a ++ b) = (r.releases_held a && (r.run a).releases_held b) := by
  induction a generalizing r with
  | nil => simp [Resources.releases_held, run_nil]
  | cons x t ih => simp [Resources.releases_held, run_cons, ih, Bool.and_assoc]

/-- Binding the vectors of an ascending range puts them on the list of bound
vectors, last bound first, and touches nothing else. -/
theorem run_bind (r : Resources) (d s n : Nat) :
    r.run ((List.range' s n).map
        (fun i => Action.request_irq i Callback.sapphire_irq_handler d 0)) =
      { r with irqs := (List.range' s n).reverse ++ r.irqs } := by
  induction n generalizing r s with
  | zero => simp [run_nil]
  | succ n ih =>
    simp [List.range'_succ, run_cons, Resources.step, ih]

/-- Binding releases nothing. -/
theorem releases_held_bind (r : Resources) (d : Nat) (l : List Nat) :
    r.releases_held (l.map
        (fun i => Action.request_irq i Callback.sapphire_irq_handler d 0)) = true := by
  induction l generalizing r with
  | nil => rfl
  | cons x t ih => simp [Resources.releases_held, Resources.release_ok, ih]

/-- The unwinding loop, started with the vectors `0 .. k-1` on top of the list
of bound vectors, removes exactly those. -/
theorem run_free_down (r : Resources) (d k : Nat) (rest : List Nat)
    (h : r.irqs = (List.range k).reverse ++ rest) :
    r.run (free_irqs_down d k) = { r with irqs := rest } := by
  induction k generalizing r with
  | zero =>
    simp at h
    simp [free_irqs_down, run_nil, ← h]
  | succ k ih =>
    simp only [free_irqs_down, run_cons, Resources.step]
    rw [ih]
    simp [h, List.range_succ]

/-- Every `free_irq` of the unwinding loop frees a vector that is bound. -/
theorem releases_held_free_down (r : Resources) (d k : Nat) (rest : List Nat)
    (h : r.irqs = (List.range k).reverse ++ rest) :
    r.releases_held (free_irqs_down d k) = true := by
  induction k generalizing r with
  | zero => rfl
  | succ k ih =>
    simp only [free_irqs_down, Resources.releases_held, Resources.release_ok, Bool.and_eq_true,
      decide_eq_true_eq]
    refine ⟨by simp [h, List.range_succ], ih _ ?_⟩
    simp [Resources.step, h, List.range_succ]

/-! ## Doorbell pulse -/

/-- On the echoing register one iteration of the write/read-back loop is
enough, whatever the register held before. -/
theorem write_until_read_echo (v : Nat) (hv : v < 2 ^ 32) (fuel s : Nat) :
    write_until_read echo_reg v (fuel + 1) s = some (v, [Action.writel v, Action.readl v]) := by
  have h1 : v % 2 ^ 32 = v := Nat.mod_eq_of_lt hv
  simp only [write_until_read, echo_reg, h1]
  simp

/-- On a register stuck at a value other than the one written the loop is
still running after any number of iterations. -/
theorem write_until_read_stuck (c v : Nat) (h : c ≠ v) (fuel : Nat) :
    write_until_read (stuck_reg c) v fuel () = none := by
  induction fuel with
  | zero => rfl
  | succ n ih => simp [write_until_read, stuck_reg, h] at ih ⊢; exact ih

/-- The doorbell pulse on the echoing register, for any channel argument. -/
theorem tx_notify_echo (fuel notify_idx init : Nat) :
    sapphire_tx_notify echo_reg (fuel + 1) notify_idx init =
      some { ret := 0, hw := 0,
             trace := (if notify_idx ≠ 0 then [Action.dev_warn] else []) ++
               [Action.writel 1, Action.readl 1, Action.udelay 10,
                Action.writel 0, Action.readl 0, Action.udelay 10] } := by
  unfold sapphire_tx_notify
  rw [write_until_read_echo 1 (by norm_num) fuel init]
  simp only []
  rw [write_until_read_echo 0 (by norm_num) fuel 1]
  by_cases h : notify_idx = 0 <;> simp [h]

/-- C4: on a register that echoes writes, for every channel argument and
every initial register value, `sapphire_tx_notify` terminates (one iteration
of each loop suffices), returns 0, writes exactly 1 then 0 to `int_status`
and leaves the register at 0; a non-zero channel gives the same return value,
register state and write sequence as channel 0, the only difference being the
warning that is logged. -/
theorem C4_tx_notify_pulse (fuel notify_idx init : Nat) :
    ∃ r, sapphire_tx_notify echo_reg (fuel + 1) notify_idx init = some r ∧
      r.ret = 0 ∧ r.hw = 0 ∧ reg_writes r.trace = [1, 0] ∧
      ∃ r0, sapphire_tx_notify echo_reg (fuel + 1) 0 init = some r0 ∧
        r.ret = r0.ret ∧ r.hw = r0.hw ∧ reg_writes r.trace = reg_writes r0.trace ∧
        r.trace = (if notify_idx ≠ 0 then [Action.dev_warn] else []) ++ r0.trace := by
  refine ⟨_, tx_notify_echo fuel notify_idx init, rfl, rfl, ?_, _, tx_notify_echo fuel 0 init,
    rfl, rfl, ?_, ?_⟩
  · by_cases h : notify_idx = 0 <;> simp [h, reg_writes]
  · by_cases h : notify_idx = 0 <;> simp [h, reg_writes]
  · by_cases h : notify_idx = 0 <;> simp [h]

end Sapphire

namespace Sapphire

/-! ## The shape of a bring-up run -/

/-- Bring-up when `request_irq` fails for vector `k` after succeeding for the
vectors below it. -/
theorem probe_bind_fail (env : ProbeEnv) (p k : Nat)
    (hz : env.kzalloc_ret = some p) (he : env.enable_ret = 0)
    (hn : env.device_name_ok = true) (hi : env.iomap_ret = 0)
    (ha : 0 ≤ env.alloc_vectors_ret) (hk : k < env.nvec.toNat)
    (h : ∀ i, i < k → env.request_irq_ret i = 0) (hf : env.request_irq_ret k ≠ 0) :
    sapphire_probe env =
      { ret := env.request_irq_ret k,
        dev := { zeroed_dev with vectors := env.nvec },
        trace :=
          [Action.devm_kzalloc (some p), Action.pcim_enable_device 0,
           Action.pcim_iomap_regions 4 0, Action.pci_msix_vec_count env.msix_vec_count,
           Action.pci_alloc_irq_vectors env.nvec env.nvec true true env.alloc_vectors_ret]
          ++ (List.range k).map
               (fun i => Action.request_irq i Callback.sapphire_irq_handler p 0)
          ++ [Action.request_irq k Callback.sapphire_irq_handler p (env.request_irq_ret k)]
          ++ (List.range k).reverse.map (fun i => Action.free_irq i p)
          ++ [Action.pci_free_irq_vectors] } := by
  have hl := request_irqs_fail env.request_irq_ret p env.nvec.toNat 0 k hk
    (by simpa using h) (by simpa using hf)
  simp only [Nat.zero_add] at hl
  have hv : (if env.msix_vec_count < 0 then 1 else env.msix_vec_count) = env.nvec := rfl
  unfold sapphire_probe
  simp only [hz, he, hn, hi, zeroed_dev, hv, hl, free_irqs_down_eq]
  simp [not_lt.mpr ha, List.range_eq_range']

/-- Bring-up when every step up to and including the binding of the handlers
succeeds: the run reaches `virtio_msg_amp_register`, whatever
`dma_alloc_coherent` returned. -/
theorem probe_past_bind (env : ProbeEnv) (p : Nat)
    (hz : env.kzalloc_ret = some p) (he : env.enable_ret = 0)
    (hn : env.device_name_ok = true) (hi : env.iomap_ret = 0)
    (ha : 0 ≤ env.alloc_vectors_ret)
    (h : ∀ i, i < env.nvec.toNat → env.request_irq_ret i = 0) :
    sapphire_probe env =
      { ret := env.register_ret,
        dev := { vectors := env.nvec, shmem := env.dma_ret.map Prod.fst,
                 shmem_size := 8 * 1024,
                 shmem_dma := (env.dma_ret.map Prod.snd).getD 0,
                 timer_function := some Callback.sapphire_poll_timer_expired,
                 probed_ok := decide (env.register_ret = 0) },
        trace :=
          [Action.devm_kzalloc (some p), Action.pcim_enable_device 0,
           Action.pcim_iomap_regions 4 0, Action.pci_msix_vec_count env.msix_vec_count,
           Action.pci_alloc_irq_vectors env.nvec env.nvec true true env.alloc_vectors_ret]
          ++ (List.range env.nvec.toNat).map
               (fun i => Action.request_irq i Callback.sapphire_irq_handler p 0)
          ++ [Action.pci_set_drvdata p, Action.pci_set_master,
              Action.dma_alloc_coherent (8 * 1024) (env.dma_ret.map Prod.fst),
              Action.hrtimer_init Callback.sapphire_poll_timer_expired,
              Action.hrtimer_start 50,
              Action.virtio_msg_amp_register env.register_ret]
          ++ (if env.register_ret ≠ 0 then
                [Action.dma_free_coherent (8 * 1024) (env.dma_ret.map Prod.fst),
                 Action.pci_clear_master]
                ++ (List.range env.nvec.toNat).reverse.map (fun i => Action.free_irq i p)
                ++ [Action.pci_free_irq_vectors]
              else []) } := by
  have hl := request_irqs_ok env.request_irq_ret p env.nvec.toNat 0 (by simpa using h)
  simp only [Nat.zero_add] at hl
  have hv : (if env.msix_vec_count < 0 then 1 else env.msix_vec_count) = env.nvec := rfl
  unfold sapphire_probe
  simp only [hz, he, hn, hi, zeroed_dev, hv, hl, free_irqs_down_eq]
  by_cases hr : env.register_ret = 0 <;>
    simp [not_lt.mpr ha, List.range_eq_range', hr]

end Sapphire

namespace Sapphire

/-- Bring-up when `pci_alloc_irq_vectors` fails: nothing is bound, nothing is
released. -/
theorem probe_alloc_fail (env : ProbeEnv) (p : Nat)
    (hz : env.kzalloc_ret = some p) (he : env.enable_ret = 0)
    (hn : env.device_name_ok = true) (hi : env.iomap_ret = 0)
    (ha : env.alloc_vectors_ret < 0) :
    sapphire_probe env =
      { ret := env.alloc_vectors_ret,
        dev := { zeroed_dev with vectors := env.nvec },
        trace :=
          [Action.devm_kzalloc (some p), Action.pcim_enable_device 0,
           Action.pcim_iomap_regions 4 0, Action.pci_msix_vec_count env.msix_vec_count,
           Action.pci_alloc_irq_vectors env.nvec env.nvec true true env.alloc_vectors_ret] } := by
  have hv : (if env.msix_vec_count < 0 then 1 else env.msix_vec_count) = env.nvec := rfl
  unfold sapphire_probe
  simp only [hz, he, hn, hi, zeroed_dev, hv]
  simp [ha]

/-- A bring-up that returns 0 had every checked step succeed. -/
theorem probe_ret_zero (env : ProbeEnv) (h : (sapphire_probe env).ret = 0) :
    ∃ p, env.kzalloc_ret = some p ∧ env.enable_ret = 0 ∧ env.device_name_ok = true ∧
      env.iomap_ret = 0 ∧ 0 ≤ env.alloc_vectors_ret ∧
      (∀ i, i < env.nvec.toNat → env.request_irq_ret i = 0) ∧ env.register_ret = 0 := by
  cases hz : env.kzalloc_ret with
  | none => simp [sapphire_probe, hz, ENOMEM] at h
  | some p =>
    by_cases he : env.enable_ret = 0
    swap
    · simp [sapphire_probe, hz, he] at h
    by_cases hn : env.device_name_ok = true
    swap
    · simp [sapphire_probe, hz, he, hn, ENOMEM] at h
    by_cases hi : env.iomap_ret = 0
    swap
    · simp [sapphire_probe, hz, he, hn, hi] at h
    by_cases ha : env.alloc_vectors_ret < 0
    · rw [probe_alloc_fail env p hz he hn hi ha] at h
      simp at h
      omega
    have ha0 : 0 ≤ env.alloc_vectors_ret := not_lt.mp ha
    rcases first_failure_cases env.request_irq_ret env.nvec.toNat with hall | ⟨j, hj, h1, h2⟩
    · rw [probe_past_bind env p hz he hn hi ha0 hall] at h
      exact ⟨p, rfl, he, hn, hi, ha0, hall, h⟩
    · rw [probe_bind_fail env p j hz he hn hi ha0 hj h1 h2] at h
      exact absurd h h2

theorem alloc_requests_append (a b : List Action) :
    alloc_requests (a ++ b) = alloc_requests a ++ alloc_requests b := by
  induction a with
  | nil => rfl
  | cons x t ih => cases x <;> simp [alloc_requests, ih]

theorem alloc_requests_map_request (d : Nat) (l : List Nat) :
    alloc_requests (l.map (fun i => Action.request_irq i Callback.sapphire_irq_handler d 0)) = [] := by
  induction l with
  | nil => rfl
  | cons x t ih => simp [alloc_requests, ih]

theorem alloc_requests_map_free (d : Nat) (l : List Nat) :
    alloc_requests (l.map (fun i => Action.free_irq i d)) = [] := by
  induction l with
  | nil => rfl
  | cons x t ih => simp [alloc_requests, ih]

theorem alloc_requests_map_free_reverse (d : Nat) (l : List Nat) :
    alloc_requests (l.map (fun i => Action.free_irq i d)).reverse = [] := by
  rw [← List.map_reverse]
  exact alloc_requests_map_free d _

/-- Among the handlers bound to the vectors `0 .. n-1`, exactly one is bound
to vector `i`. -/
theorem filter_bound_range (d n i : Nat) (hi : i < n) :
    ((List.range n).map (fun j => (j, Callback.sapphire_irq_handler, d))).filter
        (fun b => decide (b.1 = i)) = [(i, Callback.sapphire_irq_handler, d)] := by
  induction n with
  | zero => omega
  | succ n ih =>
    rw [List.range_succ, List.map_append, List.filter_append]
    rcases Nat.lt_succ_iff_lt_or_eq.mp hi with h | h
    · rw [ih h]
      have : n ≠ i := by omega
      simp [this]
    · subst h
      have : ((List.range i).map (fun j => (j, Callback.sapphire_irq_handler, d))).filter
          (fun b => decide (b.1 = i)) = [] := by
        simp only [List.filter_eq_nil_iff, List.mem_map, List.mem_range]
        rintro b ⟨j, hj, rfl⟩
        simp
        omega
      rw [this]
      simp

end Sapphire

namespace Sapphire

/-! ## Interrupt vectors -/

/-- C6: with `N` vectors (`N ≥ 1` since `k < N`), if `request_irq` succeeds
for the vectors `0 .. k-1` and fails for vector `k < N` (all earlier steps
having succeeded), `sapphire_probe` returns the error `request_irq`
returned; its `free_irq` calls are exactly `k-1, k-2, .., 0` in that order, each once, none for vector
`k` or above; they come after the failed `request_irq` and are followed by
the single `pci_free_irq_vectors`, which ends the trace; bus mastering is
never enabled and no DMA memory is allocated. -/
theorem C6_bind_failure_unwinds (env : ProbeEnv) (p N k : Nat)
    (hz : env.kzalloc_ret = some p) (he : env.enable_ret = 0)
    (hn : env.device_name_ok = true) (hi : env.iomap_ret = 0)
    (ha : 0 ≤ env.alloc_vectors_ret) (hN : env.nvec = (N : Int)) (hk : k < N)
    (h : ∀ i, i < k → env.request_irq_ret i = 0) (hf : env.request_irq_ret k ≠ 0) :
    (sapphire_probe env).ret = env.request_irq_ret k ∧
    freed_irqs (sapphire_probe env).trace = (List.range k).reverse ∧
    (freed_irqs (sapphire_probe env).trace).Nodup ∧
    (∀ v, k ≤ v → v ∉ freed_irqs (sapphire_probe env).trace) ∧
    (∃ pre, (sapphire_probe env).trace =
        pre ++ [Action.request_irq k Callback.sapphire_irq_handler p (env.request_irq_ret k)]
          ++ (List.range k).reverse.map (fun i => Action.free_irq i p)
          ++ [Action.pci_free_irq_vectors] ∧
        freed_irqs pre = [] ∧ Action.pci_free_irq_vectors ∉ pre) ∧
    Action.pci_set_master ∉ (sapphire_probe env).trace ∧
    (∀ sz b, Action.dma_alloc_coherent sz b ∉ (sapphire_probe env).trace) := by
  have hk2 : k < env.nvec.toNat := by rw [hN]; simpa using hk
  have hfreed : freed_irqs (sapphire_probe env).trace = (List.range k).reverse := by
    rw [probe_bind_fail env p k hz he hn hi ha hk2 h hf]
    simp [freed_irqs_append, freed_irqs, freed_irqs_map_free_reverse, freed_irqs_map_request]
  refine ⟨?_, hfreed, ?_, ?_, ?_, ?_, ?_⟩
  · rw [probe_bind_fail env p k hz he hn hi ha hk2 h hf]
  · rw [hfreed]
    exact List.nodup_reverse.mpr (List.nodup_range k)
  · intro v hv hmem
    rw [hfreed] at hmem
    simp at hmem
    omega
  · rw [probe_bind_fail env p k hz he hn hi ha hk2 h hf]
    refine ⟨_, rfl, ?_, ?_⟩
    · simp [freed_irqs_append, freed_irqs, freed_irqs_map_request]
    · simp
  · rw [probe_bind_fail env p k hz he hn hi ha hk2 h hf]
    simp
  · intro sz b
    rw [probe_bind_fail env p k hz he hn hi ha hk2 h hf]
    simp

/-- C6 at three vectors with `request_irq` failing for vector 2. -/
theorem C6_bind_failure_unwinds_witness :
    (sapphire_probe env_bind_fail).ret = -16 ∧
    freed_irqs (sapphire_probe env_bind_fail).trace = [1, 0] :=
  have h := C6_bind_failure_unwinds env_bind_fail 4096 3 2 rfl rfl rfl rfl (by decide) rfl
    (by decide) (by decide) (by decide)
  ⟨h.1, h.2.1⟩

/-- C8: once the device is enabled and its BARs are mapped, whatever
`pci_msix_vec_count` returned (`c`), `sapphire_probe` makes exactly one
`pci_alloc_irq_vectors` call, with minimum = maximum = 1 when `c < 0` and
`c` otherwise; that number is what it stores in the `vectors` field, and when
the allocation and every `request_irq` succeed it is the number of handlers
bound. -/
theorem C8_vector_count (env : ProbeEnv) (p : Nat)
    (hz : env.kzalloc_ret = some p) (he : env.enable_ret = 0)
    (hn : env.device_name_ok = true) (hi : env.iomap_ret = 0) :
    alloc_requests (sapphire_probe env).trace =
      [(if env.msix_vec_count < 0 then 1 else env.msix_vec_count,
        if env.msix_vec_count < 0 then 1 else env.msix_vec_count)] ∧
    (sapphire_probe env).dev.vectors =
      (if env.msix_vec_count < 0 then 1 else env.msix_vec_count) ∧
    (0 ≤ env.alloc_vectors_ret →
      (∀ i : Nat, (i : Int) < (if env.msix_vec_count < 0 then 1 else env.msix_vec_count) →
        env.request_irq_ret i = 0) →
      (((bound_irqs (sapphire_probe env).trace).length : Nat) : Int) =
        (if env.msix_vec_count < 0 then 1 else env.msix_vec_count)) := by
  have hv : (if env.msix_vec_count < 0 then 1 else env.msix_vec_count) = env.nvec := rfl
  have hpos : 0 ≤ env.nvec := by
    unfold ProbeEnv.nvec
    split <;> omega
  rw [hv]
  by_cases ha : env.alloc_vectors_ret < 0
  · rw [probe_alloc_fail env p hz he hn hi ha]
    refine ⟨by simp [alloc_requests], rfl, fun h0 => ?_⟩
    omega
  have ha0 : 0 ≤ env.alloc_vectors_ret := not_lt.mp ha
  rcases first_failure_cases env.request_irq_ret env.nvec.toNat with hall | ⟨j, hj, h1, h2⟩
  · rw [probe_past_bind env p hz he hn hi ha0 hall]
    refine ⟨?_, rfl, fun _ _ => ?_⟩
    · by_cases hr : env.register_ret = 0 <;>
        simp [alloc_requests_append, alloc_requests, alloc_requests_map_request,
          alloc_requests_map_free_reverse, hr]
    · by_cases hr : env.register_ret = 0 <;>
        simp [bound_irqs_append, bound_irqs, bound_irqs_map_request, hr,
          bound_irqs_map_free_reverse, Int.toNat_of_nonneg hpos]
  · rw [probe_bind_fail env p j hz he hn hi ha0 hj h1 h2]
    refine ⟨?_, rfl, fun _ hreq => ?_⟩
    · simp [alloc_requests_append, alloc_requests, alloc_requests_map_request,
        alloc_requests_map_free_reverse]
    · exact absurd (hreq j (by omega)) h2

/-- C8 with a failed vector-count query: one vector is requested and bound. -/
theorem C8_vector_count_witness :
    alloc_requests (sapphire_probe { env_ok 1 with msix_vec_count := -22 }).trace = [(1, 1)] ∧
    (sapphire_probe { env_ok 1 with msix_vec_count := -22 }).dev.vectors = 1 :=
  have h := C8_vector_count { env_ok 1 with msix_vec_count := -22 } 4096 rfl rfl rfl rfl
  ⟨h.1, h.2.1⟩

end Sapphire

namespace Sapphire

/-- The trace and instance of a bring-up that returned 0. -/
theorem probe_running (env : ProbeEnv) (p N : Nat) (hz : env.kzalloc_ret = some p)
    (hr : (sapphire_probe env).ret = 0) (hN : (sapphire_probe env).dev.vectors = (N : Int)) :
    env.nvec.toNat = N ∧
    (sapphire_probe env).trace =
      [Action.devm_kzalloc (some p), Action.pcim_enable_device 0,
       Action.pcim_iomap_regions 4 0, Action.pci_msix_vec_count env.msix_vec_count,
       Action.pci_alloc_irq_vectors N N true true env.alloc_vectors_ret]
      ++ (List.range N).map (fun i => Action.request_irq i Callback.sapphire_irq_handler p 0)
      ++ [Action.pci_set_drvdata p, Action.pci_set_master,
          Action.dma_alloc_coherent (8 * 1024) (env.dma_ret.map Prod.fst),
          Action.hrtimer_init Callback.sapphire_poll_timer_expired,
          Action.hrtimer_start 50,
          Action.virtio_msg_amp_register 0] := by
  obtain ⟨q, hq, he, hn, hi, ha, hall, hreg⟩ := probe_ret_zero env hr
  have hpq : q = p := by rw [hz] at hq; exact (Option.some.inj hq).symm
  subst hpq
  rw [probe_past_bind env q hz he hn hi ha hall] at hN ⊢
  simp only at hN
  have hn2 : env.nvec.toNat = N := by rw [hN]; simp
  refine ⟨hn2, ?_⟩
  simp [hreg, hN, hn2]

/-- C5: in a bring-up that returned 0 with `N` vectors, the handlers bound
are exactly one per vector `0 .. N-1`, each of them `sapphire_irq_handler`
with the same device instance; one firing of any
vector `i < N` runs the handler once, which makes exactly one
`virtio_msg_amp_notify_rx` call, on channel 0, and returns `IRQ_HANDLED`
whether that call reports success or an error (which is only logged). -/
theorem C5_vector_coalescing (env : ProbeEnv) (p N : Nat) (hz : env.kzalloc_ret = some p)
    (hr : (sapphire_probe env).ret = 0) (hN : (sapphire_probe env).dev.vectors = (N : Int)) :
    bound_irqs (sapphire_probe env).trace =
      (List.range N).map (fun i => (i, Callback.sapphire_irq_handler, p)) ∧
    ∀ i, i < N → ∀ rx : Int,
      fire_vector (sapphire_probe env).trace i rx = [some (sapphire_irq_handler rx)] ∧
      (sapphire_irq_handler rx).1 = irqreturn.IRQ_HANDLED ∧
      notify_rx_calls (sapphire_irq_handler rx).2 = [0] ∧
      (sapphire_irq_handler rx).2 =
        Action.virtio_msg_amp_notify_rx 0 rx :: (if rx ≠ 0 then [Action.dev_err rx] else []) := by
  have hb : bound_irqs (sapphire_probe env).trace =
      (List.range N).map (fun i => (i, Callback.sapphire_irq_handler, p)) := by
    rw [(probe_running env p N hz hr hN).2]
    simp [bound_irqs_append, bound_irqs, bound_irqs_map_request]
  refine ⟨hb, fun i hi rx => ⟨?_, rfl, ?_, ?_⟩⟩
  · unfold fire_vector
    rw [hb, filter_bound_range p N i hi]
    rfl
  · by_cases h : rx = 0 <;> simp [sapphire_irq_handler, notify_rx_calls, h]
  · by_cases h : rx = 0 <;> simp [sapphire_irq_handler, h]

/-- C5 at two vectors: firing vector 1 with a failing delivery. -/
theorem C5_vector_coalescing_witness :
    fire_vector (sapphire_probe (env_ok 2)).trace 1 (-5) =
      [some (irqreturn.IRQ_HANDLED,
        [Action.virtio_msg_amp_notify_rx 0 (-5), Action.dev_err (-5)])] :=
  ((C5_vector_coalescing (env_ok 2) 4096 2 rfl (by decide) (by decide)).2 1
    (by decide) (-5)).1

/-! ## Teardown -/

theorem freed_irqs_remove (p : Nat) (dev : sapphire_dev) (N : Nat) (hN : dev.vectors = (N : Int)) :
    sapphire_remove p dev =
      [Action.writel 0, Action.pci_clear_master, Action.virtio_msg_amp_unregister]
        ++ (List.range N).map (fun i => Action.free_irq i p)
        ++ [Action.pci_free_irq_vectors] := by
  unfold sapphire_remove
  rw [free_irqs_up_eq, hN]
  simp [List.range_eq_range']

/-- C9 (as amended): for a device brought up with `N` vectors, bound in the
order `0, 1, .., N-1`, the `free_irq` calls of `sapphire_remove` are
`0, 1, .., N-1`, the order of acquisition, each vector released exactly
once, followed by a single `pci_free_irq_vectors` that ends the trace. -/
theorem C9_remove_frees_ascending (env : ProbeEnv) (p N : Nat) (hz : env.kzalloc_ret = some p)
    (hr : (sapphire_probe env).ret = 0) (hN : (sapphire_probe env).dev.vectors = (N : Int)) :
    (bound_irqs (sapphire_probe env).trace).map Prod.fst = List.range N ∧
    freed_irqs (sapphire_remove p (sapphire_probe env).dev) = List.range N ∧
    (freed_irqs (sapphire_remove p (sapphire_probe env).dev)).Nodup ∧
    ∃ pre, sapphire_remove p (sapphire_probe env).dev =
        pre ++ (List.range N).map (fun i => Action.free_irq i p) ++ [Action.pci_free_irq_vectors] ∧
      freed_irqs pre = [] ∧ Action.pci_free_irq_vectors ∉ pre := by
  have hf : freed_irqs (sapphire_remove p (sapphire_probe env).dev) = List.range N := by
    rw [freed_irqs_remove p _ N hN]
    simp [freed_irqs_append, freed_irqs, freed_irqs_map_free]
  refine ⟨?_, hf, ?_, ?_⟩
  · rw [(probe_running env p N hz hr hN).2]
    simp [bound_irqs_append, bound_irqs, bound_irqs_map_request, Function.comp_def]
  · rw [hf]; exact List.nodup_range N
  · rw [freed_irqs_remove p _ N hN]
    exact ⟨_, rfl, by simp [freed_irqs], by simp⟩

/-- C9 (as amended) at three vectors. -/
theorem C9_remove_frees_ascending_witness :
    freed_irqs (sapphire_remove 4096 (sapphire_probe (env_ok 3)).dev) = [0, 1, 2] :=
  (C9_remove_frees_ascending (env_ok 3) 4096 3 rfl (by decide) (by decide)).2.1

/-- C9 as stated fails: with two vectors `sapphire_remove` frees vector 0 and
then vector 1, not 1 and then 0. -/
theorem C9_counterexample :
    (sapphire_probe (env_ok 2)).ret = 0 ∧
    freed_irqs (sapphire_remove 4096 (sapphire_probe (env_ok 2)).dev) = [0, 1] ∧
    freed_irqs (sapphire_remove 4096 (sapphire_probe (env_ok 2)).dev) ≠ [1, 0] := by
  decide

end Sapphire

namespace Sapphire

/-! ## The poll timer across teardown -/

/-- A trace without `hrtimer_cancel` leaves an armed timer armed. -/
theorem timer_stays_armed (r : Resources) (t : List Action)
    (hc : Action.hrtimer_cancel ∉ t) (hr : r.timer_armed = true) :
    (r.run t).timer_armed = true := by
  induction t generalizing r with
  | nil => exact hr
  | cons a t ih =>
    rw [run_cons]
    have hc2 : Action.hrtimer_cancel ∉ t := fun h => hc (List.mem_cons_of_mem _ h)
    apply ih _ hc2
    cases a <;> simp_all [Resources.step] <;> split <;> simp_all

/-- A trace with an `hrtimer_start` and no `hrtimer_cancel` ends with the
timer armed. -/
theorem timer_armed_of_start (r : Resources) (t : List Action) (ms : Nat)
    (hs : Action.hrtimer_start ms ∈ t) (hc : Action.hrtimer_cancel ∉ t) :
    (r.run t).timer_armed = true := by
  induction t generalizing r with
  | nil => simp at hs
  | cons a t ih =>
    rw [run_cons]
    have hc2 : Action.hrtimer_cancel ∉ t := fun h => hc (List.mem_cons_of_mem _ h)
    rcases List.mem_cons.mp hs with h | h
    · subst h
      exact timer_stays_armed _ t hc2 rfl
    · exact ih _ h hc2

/-- `sapphire_remove` neither starts nor cancels the timer. -/
theorem remove_timer_untouched (r : Resources) (p : Nat) (dev : sapphire_dev) :
    (r.run (sapphire_remove p dev)).timer_armed = r.timer_armed := by
  have key : ∀ (n i : Nat) (r : Resources),
      (r.run (free_irqs_up p n i)).timer_armed = r.timer_armed := by
    intro n
    induction n with
    | zero => intro i r; rfl
    | succ n ih =>
      intro i r
      simp only [free_irqs_up, run_cons]
      rw [ih]
      rfl
  unfold sapphire_remove
  rw [run_append, run_append]
  simp only [run_cons, run_nil]
  rw [Resources.step, key]
  rfl

theorem remove_no_cancel (p : Nat) (dev : sapphire_dev) :
    Action.hrtimer_cancel ∉ sapphire_remove p dev := by
  unfold sapphire_remove
  rw [free_irqs_up_eq]
  simp

/-- C7 (as amended): on the echoing register, whatever `probed_ok` holds and
whatever `virtio_msg_amp_notify_rx` returns, one expiry of the poll timer
performs one doorbell pulse on channel 0 (write 1, read back, delay, write 0,
read back, delay), then one `virtio_msg_amp_notify_rx` call on channel 0
(logging an error result), then forwards the timer by 50 ms and returns
`HRTIMER_RESTART`; `sapphire_remove` issues no `hrtimer_cancel` and leaves
the armed state of the timer as it found it, so the timer is still armed
after teardown. -/
theorem C7_poll_timer_expiry (fuel init : Nat) (dev : sapphire_dev) (rx : Int) (p : Nat)
    (r : Resources) :
    (∃ res, sapphire_poll_timer_expired echo_reg (fuel + 1) dev rx init = some res ∧
      res.ret = hrtimer_restart.HRTIMER_RESTART ∧ res.hw = 0 ∧
      res.trace =
        [Action.writel 1, Action.readl 1, Action.udelay 10,
         Action.writel 0, Action.readl 0, Action.udelay 10,
         Action.virtio_msg_amp_notify_rx 0 rx]
        ++ (if rx ≠ 0 then [Action.dev_err rx] else [])
        ++ [Action.hrtimer_forward_now 50] ∧
      reg_writes res.trace = [1, 0] ∧ notify_rx_calls res.trace = [0]) ∧
    Action.hrtimer_cancel ∉ sapphire_remove p dev ∧
    (r.run (sapphire_remove p dev)).timer_armed = r.timer_armed := by
  refine ⟨?_, remove_no_cancel p dev, remove_timer_untouched r p dev⟩
  unfold sapphire_poll_timer_expired
  rw [tx_notify_echo fuel 0 init]
  by_cases h : rx = 0 <;> simp [h, reg_writes, notify_rx_calls]

/-- C7 as stated fails: after a successful bring-up followed by
`sapphire_remove` the poll timer is still armed, and no `hrtimer_cancel` was
issued. -/
theorem C7_counterexample :
    (sapphire_probe (env_ok 1)).ret = 0 ∧
    Action.hrtimer_cancel ∉
      (sapphire_probe (env_ok 1)).trace ++ sapphire_remove 4096 (sapphire_probe (env_ok 1)).dev ∧
    (Resources.none.run ((sapphire_probe (env_ok 1)).trace ++
      sapphire_remove 4096 (sapphire_probe (env_ok 1)).dev)).timer_armed = true := by
  decide

/-- C3 (as amended): for a device in the Running state with `N` vectors, the
calls of `sapphire_remove`, any release of the DMA block set aside, are in
this order: clear `int_status`, disable bus mastering, unregister from the
upward layer, `free_irq` for the vectors `0 .. N-1` in ascending order,
`pci_free_irq_vectors`; the unregister call precedes every release of a
vector, and the poll timer is not disarmed: it is still armed when remove
returns. -/
theorem C3_remove_sequence (env : ProbeEnv) (p N : Nat) (hz : env.kzalloc_ret = some p)
    (hr : (sapphire_probe env).ret = 0) (hN : (sapphire_probe env).dev.vectors = (N : Int)) :
    (sapphire_remove p (sapphire_probe env).dev).filter (fun a => !is_dma_free a) =
      [Action.writel 0, Action.pci_clear_master, Action.virtio_msg_amp_unregister]
        ++ (List.range N).map (fun i => Action.free_irq i p)
        ++ [Action.pci_free_irq_vectors] ∧
    Action.hrtimer_cancel ∉ sapphire_remove p (sapphire_probe env).dev ∧
    (Resources.none.run ((sapphire_probe env).trace ++
      sapphire_remove p (sapphire_probe env).dev)).timer_armed = true := by
  refine ⟨?_, remove_no_cancel p _, ?_⟩
  · rw [freed_irqs_remove p _ N hN]
    simp [List.filter_append, is_dma_free, List.filter_map, Function.comp_def]
  · apply timer_armed_of_start _ _ 50
    · rw [(probe_running env p N hz hr hN).2]
      simp
    · rw [(probe_running env p N hz hr hN).2, freed_irqs_remove p _ N hN]
      simp

/-- C3 (as amended) at two vectors. -/
theorem C3_remove_sequence_witness :
    (sapphire_remove 4096 (sapphire_probe (env_ok 2)).dev).filter (fun a => !is_dma_free a) =
      [Action.writel 0, Action.pci_clear_master, Action.virtio_msg_amp_unregister,
       Action.free_irq 0 4096, Action.free_irq 1 4096, Action.pci_free_irq_vectors] :=
  (C3_remove_sequence (env_ok 2) 4096 2 rfl (by decide) (by decide)).1

/-- C3 as stated fails: with one vector, `sapphire_remove` begins by clearing
`int_status` and disabling bus mastering, the unregister call comes third,
and there is no timer disarm and no release of the DMA block in its trace,
which therefore is not the reverse of bring-up. -/
theorem C3_counterexample :
    (sapphire_probe (env_ok 1)).ret = 0 ∧
    sapphire_remove 4096 (sapphire_probe (env_ok 1)).dev =
      [Action.writel 0, Action.pci_clear_master, Action.virtio_msg_amp_unregister,
       Action.free_irq 0 4096, Action.pci_free_irq_vectors] ∧
    sapphire_remove 4096 (sapphire_probe (env_ok 1)).dev ≠
      [Action.virtio_msg_amp_unregister, Action.hrtimer_cancel,
       Action.dma_free_coherent (8 * 1024) (some 8192), Action.free_irq 0 4096,
       Action.pci_free_irq_vectors, Action.pci_clear_master] := by
  decide

end Sapphire

namespace Sapphire

/-! ## Unwinding a failed bring-up -/

/-- Binding the vectors `0 .. k-1` when none is bound. -/
theorem run_bind0 (k d : Nat) (v bm dm tm rg : Bool) :
    (Resources.mk [] v bm dm tm rg).run
        ((List.range k).map (fun i => Action.request_irq i Callback.sapphire_irq_handler d 0)) =
      Resources.mk (List.range k).reverse v bm dm tm rg := by
  rw [List.range_eq_range', run_bind]
  simp

/-- The unwinding loop when exactly the vectors `0 .. k-1` are bound. -/
theorem run_free0 (k d : Nat) (v bm dm tm rg : Bool) :
    (Resources.mk (List.range k).reverse v bm dm tm rg).run
        ((List.range k).map (fun i => Action.free_irq i d)).reverse =
      Resources.mk [] v bm dm tm rg := by
  rw [← List.map_reverse, ← free_irqs_down_eq, run_free_down _ d k [] (by simp)]

/-- Every `free_irq` of the unwinding loop frees a bound vector. -/
theorem releases_free0 (k d : Nat) (v bm dm tm rg : Bool) :
    (Resources.mk (List.range k).reverse v bm dm tm rg).releases_held
        ((List.range k).map (fun i => Action.free_irq i d)).reverse = true := by
  rw [← List.map_reverse, ← free_irqs_down_eq, releases_held_free_down _ d k [] (by simp)]

/-- Binding releases nothing. -/
theorem releases_bind0 (r : Resources) (k d : Nat) :
    r.releases_held
        ((List.range k).map (fun i => Action.request_irq i Callback.sapphire_irq_handler d 0)) =
      true :=
  releases_held_bind r d _

theorem unwound_bind_fail (env : ProbeEnv) (p k : Nat)
    (hz : env.kzalloc_ret = some p) (he : env.enable_ret = 0)
    (hn : env.device_name_ok = true) (hi : env.iomap_ret = 0)
    (ha : 0 ≤ env.alloc_vectors_ret) (hk : k < env.nvec.toNat)
    (h : ∀ i, i < k → env.request_irq_ret i = 0) (hf : env.request_irq_ret k ≠ 0) :
    unwound env false := by
  unfold unwound
  rw [probe_bind_fail env p k hz he hn hi ha hk h hf]
  refine ⟨hf, ?_, ?_, ?_⟩
  · simp [run_append, run_cons, run_nil, Resources.step, Resources.none, not_lt.mpr ha, hf,
      run_bind0, run_free0]
  · simp [run_append, run_cons, run_nil, Resources.step, Resources.none, not_lt.mpr ha, hf,
      run_bind0, run_free0, releases_held_append, Resources.releases_held,
      Resources.release_ok, releases_bind0, releases_free0]
  · simp

theorem unwound_register_fail (env : ProbeEnv) (p : Nat)
    (hz : env.kzalloc_ret = some p) (he : env.enable_ret = 0)
    (hn : env.device_name_ok = true) (hi : env.iomap_ret = 0)
    (ha : 0 ≤ env.alloc_vectors_ret)
    (h : ∀ i, i < env.nvec.toNat → env.request_irq_ret i = 0)
    (hd : env.dma_ret.isSome = true) (hr : env.register_ret ≠ 0) :
    unwound env true := by
  unfold unwound
  rw [probe_past_bind env p hz he hn hi ha h]
  obtain ⟨blk, hblk⟩ := Option.isSome_iff_exists.mp hd
  refine ⟨hr, ?_, ?_, ?_⟩
  · simp [run_append, run_cons, run_nil, Resources.step, Resources.none, not_lt.mpr ha, hr, hblk,
      run_bind0, run_free0]
  · simp [run_append, run_cons, run_nil, Resources.step, Resources.none, not_lt.mpr ha, hr, hblk,
      run_bind0, run_free0, releases_held_append, Resources.releases_held,
      Resources.release_ok, releases_bind0, releases_free0]
  · simp [hr]

/-- A failure before the vectors are allocated leaves nothing to release. -/
theorem unwound_early (env : ProbeEnv)
    (h : env.kzalloc_ret = none ∨ env.enable_ret ≠ 0 ∨ env.device_name_ok = false ∨
      env.iomap_ret ≠ 0 ∨ env.alloc_vectors_ret < 0) :
    unwound env false := by
  unfold unwound
  cases hz : env.kzalloc_ret with
  | none =>
    simp [sapphire_probe, hz, ENOMEM, Resources.run, Resources.step, Resources.none,
      Resources.releases_held, Resources.release_ok]
  | some p =>
    by_cases he : env.enable_ret = 0
    swap
    · simp [sapphire_probe, hz, he, Resources.run, Resources.step, Resources.none,
        Resources.releases_held, Resources.release_ok]
    by_cases hn : env.device_name_ok = true
    swap
    · simp [sapphire_probe, hz, he, hn, ENOMEM, Resources.run, Resources.step, Resources.none,
        Resources.releases_held, Resources.release_ok]
    by_cases hi : env.iomap_ret = 0
    swap
    · simp [sapphire_probe, hz, he, hn, hi, Resources.run, Resources.step, Resources.none,
        Resources.releases_held, Resources.release_ok]
    have ha : env.alloc_vectors_ret < 0 := by
      rcases h with h | h | h | h | h
      · rw [hz] at h; exact absurd h (by simp)
      · exact absurd he h
      · rw [hn] at h; exact absurd h (by simp)
      · exact absurd hi h
      · exact h
    rw [probe_alloc_fail env p hz he hn hi ha]
    refine ⟨?_, ?_, ?_, ?_⟩
    · simp only; omega
    · simp [Resources.run, Resources.step, Resources.none, ha]
    · simp [Resources.releases_held, Resources.release_ok]
    · simp

/-- C1 (as amended): for every step at which `sapphire_probe` checks for a
failure (allocation of the instance, enabling the device, the device name,
mapping the BARs, allocating vectors, binding a handler, registering with the
upward layer; the DMA allocation is left aside) and every outcome in which
that step is the first to fail, `sapphire_probe` returns a non-zero status
and, after the calls it made, no interrupt handler is bound, the vector
allocation is released, bus mastering is off, the DMA block is freed and the
device is not registered; every release it issued was for a resource held at
that point. The poll timer is never cancelled: it is left armed exactly when
the failing step is the registration. -/
theorem C1_failed_probe_unwinds (env : ProbeEnv) (k : Step)
    (hk : env.first_failure = some k) (hne : k ≠ Step.alloc_shmem) :
    (sapphire_probe env).ret ≠ 0 ∧
    (Resources.none.run (sapphire_probe env).trace).irqs = [] ∧
    (Resources.none.run (sapphire_probe env).trace).vectors = false ∧
    (Resources.none.run (sapphire_probe env).trace).bus_master = false ∧
    (Resources.none.run (sapphire_probe env).trace).dma = false ∧
    (Resources.none.run (sapphire_probe env).trace).registered = false ∧
    Resources.none.releases_held (sapphire_probe env).trace = true ∧
    Action.hrtimer_cancel ∉ (sapphire_probe env).trace ∧
    (Resources.none.run (sapphire_probe env).trace).timer_armed =
      decide (k = Step.register_upward) := by
  have key : unwound env (decide (k = Step.register_upward)) := by
    unfold ProbeEnv.first_failure at hk
    split_ifs at hk with h1 h2 h3 h4 h5 h6 h7 h8
    · cases hk
      exact unwound_early env (Or.inl (Option.isNone_iff_eq_none.mp h1))
    · cases hk
      exact unwound_early env (Or.inr (Or.inl h2))
    · cases hk
      exact unwound_early env (Or.inr (Or.inr (Or.inl (by simpa using h3))))
    · cases hk
      exact unwound_early env (Or.inr (Or.inr (Or.inr (Or.inl h4))))
    · cases hk
      exact unwound_early env (Or.inr (Or.inr (Or.inr (Or.inr h5))))
    · cases hk
      obtain ⟨p, hp⟩ : ∃ p, env.kzalloc_ret = some p := by
        cases hz : env.kzalloc_ret with
        | none => simp [hz] at h1
        | some p => exact ⟨p, rfl⟩
      rcases first_failure_cases env.request_irq_ret env.nvec.toNat with hall | ⟨j, hj, h1', h2'⟩
      · exfalso
        obtain ⟨i, hi, hi2⟩ := List.any_eq_true.mp h6
        exact (of_decide_eq_true hi2) (hall i (List.mem_range.mp hi))
      · exact unwound_bind_fail env p j hp (not_not.mp h2) (by simpa using h3) (not_not.mp h4)
          (not_lt.mp h5) hj h1' h2'
    · cases hk
      exact absurd rfl hne
    · cases hk
      obtain ⟨p, hp⟩ : ∃ p, env.kzalloc_ret = some p := by
        cases hz : env.kzalloc_ret with
        | none => simp [hz] at h1
        | some p => exact ⟨p, rfl⟩
      have hall : ∀ i, i < env.nvec.toNat → env.request_irq_ret i = 0 := by
        intro i hi
        by_contra hc
        exact h6 (List.any_eq_true.mpr ⟨i, List.mem_range.mpr hi, decide_eq_true hc⟩)
      exact unwound_register_fail env p hp (not_not.mp h2) (by simpa using h3) (not_not.mp h4)
        (not_lt.mp h5) hall
        (by cases hd : env.dma_ret with
            | none => simp [hd] at h7
            | some b => rfl) h8
  obtain ⟨hret, hrun, hrel, hcan⟩ := key
  rw [hrun]
  exact ⟨hret, rfl, rfl, rfl, rfl, rfl, hrel, hcan, rfl⟩

/-- C1 (as amended) at three vectors with `request_irq` failing for vector 2,
and at one vector with the registration failing. -/
theorem C1_failed_probe_unwinds_witness :
    (sapphire_probe env_bind_fail).ret ≠ 0 ∧
    (Resources.none.run (sapphire_probe env_bind_fail).trace).irqs = [] ∧
    (Resources.none.run (sapphire_probe (env_register_fail 1)).trace).dma = false :=
  ⟨(C1_failed_probe_unwinds env_bind_fail Step.bind_handlers (by decide) (by decide)).1,
   (C1_failed_probe_unwinds env_bind_fail Step.bind_handlers (by decide) (by decide)).2.1,
   (C1_failed_probe_unwinds (env_register_fail 1) Step.register_upward (by decide)
      (by decide)).2.2.2.2.1⟩

/-- C1 as stated fails at two steps. When the registration (step 8) is the
first to fail, the poll timer armed in step 7 is left armed. When the DMA
allocation (step 6) is the first to fail, `sapphire_probe` does not return a
failure: it returns 0. -/
theorem C1_counterexample :
    ((env_register_fail 1).first_failure = some Step.register_upward ∧
      (sapphire_probe (env_register_fail 1)).ret = -12 ∧
      (Resources.none.run (sapphire_probe (env_register_fail 1)).trace).timer_armed = true) ∧
    ((env_dma_fail 1).first_failure = some Step.alloc_shmem ∧
      (sapphire_probe (env_dma_fail 1)).ret = 0) := by
  decide

/-- C2, the code at the failing input: with `dma_alloc_coherent` returning
`NULL` and every other call succeeding, `sapphire_probe` goes on to arm the
poll timer and to register, and returns 0 with `shmem` unset; bus mastering
stays on and the vector stays bound. If the registration then fails, the
unwinding calls `dma_free_coherent` on the block that was never allocated. -/
theorem C2_dma_failure_not_checked :
    (sapphire_probe (env_dma_fail 1)).ret = 0 ∧
    (sapphire_probe (env_dma_fail 1)).dev.shmem = none ∧
    (sapphire_probe (env_dma_fail 1)).trace =
      [Action.devm_kzalloc (some 4096), Action.pcim_enable_device 0,
       Action.pcim_iomap_regions 4 0, Action.pci_msix_vec_count 1,
       Action.pci_alloc_irq_vectors 1 1 true true 1,
       Action.request_irq 0 Callback.sapphire_irq_handler 4096 0,
       Action.pci_set_drvdata 4096, Action.pci_set_master,
       Action.dma_alloc_coherent 8192 none,
       Action.hrtimer_init Callback.sapphire_poll_timer_expired,
       Action.hrtimer_start 50, Action.virtio_msg_amp_register 0] ∧
    Resources.none.run (sapphire_probe (env_dma_fail 1)).trace =
      { irqs := [0], vectors := true, bus_master := true, dma := false,
        timer_armed := true, registered := true } ∧
    (sapphire_probe (env_dma_register_fail 1)).trace =
      [Action.devm_kzalloc (some 4096), Action.pcim_enable_device 0,
       Action.pcim_iomap_regions 4 0, Action.pci_msix_vec_count 1,
       Action.pci_alloc_irq_vectors 1 1 true true 1,
       Action.request_irq 0 Callback.sapphire_irq_handler 4096 0,
       Action.pci_set_drvdata 4096, Action.pci_set_master,
       Action.dma_alloc_coherent 8192 none,
       Action.hrtimer_init Callback.sapphire_poll_timer_expired,
       Action.hrtimer_start 50, Action.virtio_msg_amp_register (-12),
       Action.dma_free_coherent 8192 none, Action.pci_clear_master,
       Action.free_irq 0 4096, Action.pci_free_irq_vectors] := by
  decide

end Sapphire

namespace Xen

/-- C10: for a request whose copy-in succeeded with contents `op`: if
`op.count ≠ 1`, `xen_virt2gfn` returns `-EINVAL` and makes no `copy_to_user`
call; if `op.count = 1` and it returns 0, the VMA lookup gave a VMA whose page
array has a page at index `((addr[0] - vm_start) mod 2^64) >> PAGE_SHIFT`,
and what is copied back has `count` and `padding` unchanged and `addr[0]`
equal to `(page_to_pfn(page) << PAGE_SHIFT) mod 2^64`; if that entry of the
page array is `NULL` the result is `-EFAULT`; and when the entry is a page and
the copy-out succeeds the function does return 0. -/
theorem C10_virt2gfn (env : IoctlEnv) (op : ioctl_xen_virt2gfn)
    (hin : env.copy_in = some op) :
    (op.count ≠ 1 → xen_virt2gfn env = some { rc := -EINVAL, copied_out := none }) ∧
    (op.count = 1 → ∀ r, xen_virt2gfn env = some r → r.rc = 0 →
      ∃ vm_start pages page,
        env.find_vma op.addr0 = VmaLookup.vma vm_start pages ∧
        pages (u64_sub op.addr0 vm_start >>> env.PAGE_SHIFT) = some page ∧
        r.copied_out =
          some { op with addr0 := (env.page_to_pfn page <<< env.PAGE_SHIFT) % 2 ^ 64 }) ∧
    (op.count = 1 → ∀ vm_start pages,
      env.find_vma op.addr0 = VmaLookup.vma vm_start pages →
      pages (u64_sub op.addr0 vm_start >>> env.PAGE_SHIFT) = none →
      xen_virt2gfn env = some { rc := -EFAULT, copied_out := some op }) ∧
    (op.count = 1 → ∀ vm_start pages page,
      env.find_vma op.addr0 = VmaLookup.vma vm_start pages →
      pages (u64_sub op.addr0 vm_start >>> env.PAGE_SHIFT) = some page →
      env.copy_out_ok = true →
      xen_virt2gfn env =
        some { rc := 0,
               copied_out :=
                 some { op with addr0 := (env.page_to_pfn page <<< env.PAGE_SHIFT) % 2 ^ 64 } }) := by
  refine ⟨?_, ?_, ?_, ?_⟩
  · intro hc
    simp [xen_virt2gfn, hin, hc]
  · intro hc r hr h0
    unfold xen_virt2gfn at hr
    simp only [hin, hc, ne_eq, not_true_eq_false, if_false] at hr
    cases hv : env.find_vma op.addr0 with
    | err =>
      rw [hv] at hr
      simp only [Option.some.injEq] at hr
      rw [← hr] at h0
      simp [EFAULT] at h0
    | null =>
      rw [hv] at hr
      simp at hr
    | vma vm_start pages =>
      rw [hv] at hr
      simp only at hr
      cases hp : pages (u64_sub op.addr0 vm_start >>> env.PAGE_SHIFT) with
      | none =>
        rw [hp] at hr
        by_cases hco : env.copy_out_ok = true
        · simp [hco] at hr
          rw [← hr] at h0
          simp [EFAULT] at h0
        · simp [hco] at hr
          rw [← hr] at h0
          simp [EFAULT] at h0
      | some page =>
        rw [hp] at hr
        refine ⟨vm_start, pages, page, rfl, hp, ?_⟩
        by_cases hco : env.copy_out_ok = true
        · simp [hco] at hr
          rw [← hr]
          simp [hc]
        · simp [hco] at hr
          rw [← hr] at h0
          simp [EFAULT] at h0
  · intro hc vm_start pages hv hp
    unfold xen_virt2gfn
    simp only [hin, hc, ne_eq, not_true_eq_false, if_false, hv, hp]
    by_cases hco : env.copy_out_ok = true <;> simp [hco]
  · intro hc vm_start pages page hv hp hco
    unfold xen_virt2gfn
    simp only [hin, hc, ne_eq, not_true_eq_false, if_false, hv, hp]
    simp [hco]

/-- C10 on the sample request: address 0x5000 in a VMA starting at 0x4000
selects index 1 of the page array, whose page has frame number 78. -/
theorem C10_virt2gfn_witness :
    xen_virt2gfn sample_request =
      some { rc := 0, copied_out := some { count := 1, padding := 0, addr0 := 78 * 4096 } } :=
  (C10_virt2gfn sample_request { count := 1, padding := 0, addr0 := 0x5000 } rfl).2.2.2 rfl
    0x4000 sample_pages 77 rfl (by decide) rfl

end Xen

